import Mathlib

/-!
Verification of the antidote dependency-resolution core.

Shallow embedding of the Python sources:
  * `src/antidote/container/container.py` (`Dependency`, `DependencyContainer`)
  * `src/antidote/container/stack.py` (`InstantiationStack`)
  * `src/antidote/providers/factory.py` (`Build`, `FactoryProvider`)
  * `src/antidote/providers/resource.py` (`ResourceProvider`)
  * `src/antidote/providers/tag/provider.py` (`TaggedDependencies`, `TagProvider`)
  * `src/antidote/injection/_wrapper.py` (`InjectedCallableWrapper`, `_inject_kwargs`)

Resolved instances produced by factories are modelled as natural numbers
(`Val`); dependency identifiers are natural numbers, possibly wrapped by the
container's `Dependency` class.  Python exceptions become an explicit error
type threaded through `Except`.
-/

namespace Antidote

/-- Resolved instances; Python objects are opaque, a `Nat` tag is enough. -/
abbrev Val := Nat

/-! ## Dependency keys (`container/container.py`, class `Dependency`)

A container key is either a bare identifier or an identifier wrapped (possibly
repeatedly) in the `Dependency` class.  `Dependency.__eq__` is
`self.id == other or (isinstance(other, Dependency) and self.id == other.id)`;
for a bare id on the left, Python falls back to the reflected comparison, which
lands in the same method.  `Dependency.__hash__` is `hash(self.id)`. -/

inductive CKey where
  | base : Nat → CKey
  | dep : CKey → CKey
deriving DecidableEq, Repr

/-- Python `==` between container keys (`Dependency.__eq__` plus the reflected
comparison when the left operand is a bare value). -/
def pyEq : CKey → CKey → Bool
  | .base n, .base m => n == m
  | .base n, .dep k => pyEq k (.base n)
  | .dep k, .base m => pyEq k (.base m)
  | .dep k, .dep k' => pyEq k (.dep k') || pyEq k k'
termination_by a b => sizeOf a + sizeOf b

/-- Python `hash` of a container key (`Dependency.__hash__` is `hash(self.id)`,
so wrapping never changes the hash). -/
def pyHash : CKey → Nat
  | .base n => n
  | .dep k => pyHash k

/-- Strip every `Dependency` wrapper down to the underlying identifier
(analysis helper, not source code). -/
def strip : CKey → Nat
  | .base n => n
  | .dep k => strip k

/-! ## Singleton cache (`DependencyContainer._singletons`, a Python dict)

A dict keyed by objects whose equality is `pyEq`; `d[k] = v` overwrites the
first matching entry (keeping the original key object, as CPython does) or
appends, and `d[k]` returns the first matching entry's value. -/

abbrev Cache := List (CKey × Val)

def lookupC : Cache → CKey → Option Val
  | [], _ => none
  | (k', v) :: rest, k => if pyEq k' k then some v else lookupC rest k

def insertC : Cache → CKey → Val → Cache
  | [], k, v => [(k, v)]
  | (k', v') :: rest, k, v =>
      if pyEq k' k then (k', v) :: rest else (k', v') :: insertC rest k v

/-! ## Instantiation stack (`container/stack.py`)

`InstantiationStack` keeps a list `_stack` and a set `_dependencies`; set
membership uses Python equality, i.e. `pyEq`. -/

structure InstantiationStack where
  stack : List CKey
  dependencies : List CKey
deriving DecidableEq, Repr

def InstantiationStack.empty : InstantiationStack := ⟨[], []⟩

/-- Membership test `dependency_id in self._dependencies`. -/
def stackMem (s : InstantiationStack) (k : CKey) : Bool :=
  s.dependencies.any (fun d => pyEq d k)

/-- Models `InstantiationStack.push`: raises `DependencyCycleError(self._stack + [id])`
when the id is already a member, otherwise appends to both structures.  Note
the error payload is the ENTIRE current stack plus the repeated key. -/
def InstantiationStack.push (s : InstantiationStack) (k : CKey) :
    Except (List CKey) InstantiationStack :=
  if stackMem s k then
    .error (s.stack ++ [k])
  else
    .ok ⟨s.stack ++ [k], s.dependencies ++ [k]⟩

/-- Models `InstantiationStack.pop`: `self._dependencies.remove(self._stack.pop())`. -/
def InstantiationStack.pop (s : InstantiationStack) : InstantiationStack :=
  match s.stack.getLast? with
  | none => s
  | some k => ⟨s.stack.dropLast, s.dependencies.eraseP (fun d => pyEq d k)⟩

/-! ## Exceptions (`exceptions.py`) -/

inductive PyErr where
  /-- Models `DependencyCycleError`, carrying the offending key path. -/
  | cycleError : List CKey → PyErr
  /-- Models `DependencyInstantiationError(key)` raised `from e`: carries the key and
  the original cause. -/
  | instantiationError : CKey → PyErr → PyErr
  /-- Models `DependencyNotFoundError(key)`. -/
  | notFoundError : CKey → PyErr
  /-- Python `RecursionError`: stands in for exhausting the interpreter stack. -/
  | recursionError : PyErr
  /-- Any other exception raised inside user factory code. -/
  | userError : Nat → PyErr
deriving DecidableEq, Repr

def PyErr.isCycle : PyErr → Bool
  | .cycleError _ => true
  | _ => false

/-! ## Providers as seen by the container

`DependencyContainer` only needs `provider.provide(dependency)`: either the
provider declines (returns `None`) without running user code — every concrete
provider checks its registry before calling anything — or it runs a
factory/getter and wraps the result in an `Instance(item, singleton)`.  Factory
bodies are arbitrary user code that may raise and may re-enter the container
(`container[k]`, i.e. `__getitem__`); they are modelled by the small program
type `FProg`. -/

inductive FProg where
  /-- The factory returns a value. -/
  | ret : Val → FProg
  /-- The factory raises an exception. -/
  | raiseE : PyErr → FProg
  /-- The factory requests `container[k]` and continues with the result. -/
  | getThen : CKey → (Val → FProg) → FProg

/-- A registered provider: `answers k` is `none` when the provider declines the
(wrapped) key, otherwise the factory program to run together with the
singleton flag of the resulting `Instance`. -/
structure Prov where
  answers : CKey → Option (FProg × Bool)

/-- Container state: singleton cache plus instantiation stack
(`DependencyContainer._singletons` and `_instantiation_stack`). -/
structure St where
  cache : Cache
  stack : InstantiationStack
deriving DecidableEq, Repr

/-- Models `except DependencyCycleError: raise` / `except Exception as e:
raise DependencyInstantiationError(dependency_id) from e` in
`DependencyContainer.provide`. -/
def handleErr (k : CKey) (e : PyErr) : PyErr :=
  match e with
  | .cycleError p => .cycleError p
  | e => .instantiationError k e

/-- Models `provide` wraps a bare id into `Dependency` before consulting providers:
`dependency = dependency_id if isinstance(dependency_id, Dependency) else
Dependency(dependency_id)`. -/
def wrap (k : CKey) : CKey :=
  match k with
  | .dep k' => .dep k'
  | .base n => .dep (.base n)

/-- First provider answer: `for provider in self._providers: instance =
provider.provide(dependency); if instance is not None: ...` — the first
non-declining provider's factory runs and its result is returned. -/
def firstAnswer : List Prov → CKey → Option (FProg × Bool)
  | [], _ => none
  | p :: rest, k =>
    match p.answers k with
    | some a => some a
    | none => firstAnswer rest k

mutual

/-- Models `DependencyContainer.provide` (`container/container.py`, lines 170-211):
check the cache; on a miss, under the lock push onto the instantiation stack,
re-check the cache, wrap the key, try the providers in order and cache a
singleton result; `DependencyCycleError` is re-raised unchanged, any other
exception is wrapped into `DependencyInstantiationError(key)`; if every
provider declines, the `SENTINEL` (here `none`) is returned.  `fuel` bounds the
interpreter recursion depth (running out models Python's `RecursionError`). -/
def provide (fuel : Nat) (provs : List Prov) (st : St) (k : CKey) :
    Except PyErr (St × Option Val) :=
  match lookupC st.cache k with
  | some v => .ok (st, some v)
  | none =>
    match fuel with
    | 0 => .error PyErr.recursionError
    | fuel + 1 =>
      match st.stack.push k with
      | .error p => .error (handleErr k (.cycleError p))
      | .ok stk' =>
        -- double-checked cache lookup inside the lock
        match lookupC st.cache k with
        | some v => .ok (⟨st.cache, stk'.pop⟩, some v)
        | none =>
          match firstAnswer provs (wrap k) with
          | none => .ok (⟨st.cache, stk'.pop⟩, none)
          | some (prog, sing) =>
            match runProg fuel provs ⟨st.cache, stk'⟩ prog with
            | .error e => .error (handleErr k e)
            | .ok (st', v) =>
              let cache' := if sing then insertC st'.cache k v else st'.cache
              .ok (⟨cache', st'.stack.pop⟩, some v)

/-- Run a factory body.  `getThen` performs `self._container[k]`
(`DependencyContainer.__getitem__`): a `provide` returning the sentinel raises
`DependencyNotFoundError`, all other exceptions propagate unchanged through
the factory frame. -/
def runProg (fuel : Nat) (provs : List Prov) (st : St) :
    FProg → Except PyErr (St × Val)
  | .ret v => .ok (st, v)
  | .raiseE e => .error e
  | .getThen k f =>
    match fuel with
    | 0 => .error PyErr.recursionError
    | fuel + 1 =>
      match provide fuel provs st k with
      | .error e => .error e
      | .ok (_, none) => .error (.notFoundError k)
      | .ok (st', some v) => runProg fuel provs st' (f v)

end

/-- Models `DependencyContainer.__getitem__`: `provide`, then raise
`DependencyNotFoundError` on the sentinel. -/
def getitem (fuel : Nat) (provs : List Prov) (st : St) (k : CKey) :
    Except PyErr (St × Val) :=
  match provide fuel provs st k with
  | .error e => .error e
  | .ok (_, none) => .error (.notFoundError k)
  | .ok (st', some v) => .ok (st', v)

/-- Models `DependencyContainer.__setitem__`: `self._singletons[dependency_id] = v`. -/
def setitem (st : St) (k : CKey) (v : Val) : St :=
  ⟨insertC st.cache k v, st.stack⟩

/-! ## Injection wrapper (`injection/_wrapper.py`) -/

/-- An `Injection` record: argument name, whether the argument is required
(no default) and the dependency to inject, if any. -/
structure Injection where
  argName : String
  required : Bool
  dependency : Option CKey

/-- Models `_inject_kwargs` applied to the blueprint slice `injections[offset:]`
(the caller performs the slicing): for each entry with a dependency whose
argument name is not yet among the keyword arguments, ask `container.provide`;
on a value, add the keyword argument; on the sentinel, skip the entry when it
is optional and raise `DependencyNotFoundError(dependency)` when required.
The container (`fuel`, `provs`, state) is threaded through the calls. -/
def injectKwargs (fuel : Nat) (provs : List Prov) :
    St → List Injection → List (String × Val) →
    Except PyErr (St × List (String × Val))
  | st, [], kwargs => .ok (st, kwargs)
  | st, inj :: rest, kwargs =>
    match inj.dependency with
    | none => injectKwargs fuel provs st rest kwargs
    | some d =>
      if kwargs.any (fun p => p.1 == inj.argName) then
        injectKwargs fuel provs st rest kwargs
      else
        match provide fuel provs st d with
        | .error e => .error e
        | .ok (st', some v) =>
            injectKwargs fuel provs st' rest (kwargs ++ [(inj.argName, v)])
        | .ok (st', none) =>
            if inj.required then .error (.notFoundError d)
            else injectKwargs fuel provs st' rest kwargs

/-- Models `InjectedCallableWrapper.__call__`: inject the missing keyword arguments
for the blueprint entries past `self.__injection_offset + len(args)`, then
call the wrapped callable.  The wrapped callable is an arbitrary function of
the positional arguments, the final keyword arguments and the container
state. -/
def wrapperCall (fuel : Nat) (provs : List Prov) (st : St)
    (blueprint : List Injection) (skipSelf : Bool)
    (wrapped : List Val → List (String × Val) → St → Except PyErr (St × Val))
    (args : List Val) (kwargs : List (String × Val)) :
    Except PyErr (St × Val) :=
  let offset := (if skipSelf then 1 else 0) + args.length
  match injectKwargs fuel provs st (blueprint.drop offset) kwargs with
  | .error e => .error e
  | .ok (st', kw) => wrapped args kw st'

/-! ## Factory provider (`providers/factory.py`)

`Build` wraps a base key together with extra positional and keyword build
arguments.  Base identifiers are natural numbers, positional arguments are
values, keyword arguments are name/value pairs.  The `DependencyInstance`
wrapper returned by `FactoryProvider.provide` (defined in the `core` module,
equivalent to `container.Instance`: an item plus a singleton flag) is modelled
as a plain pair. -/

inductive FKey where
  | base : Nat → FKey
  | build : Nat → List Nat → List (String × Nat) → FKey
deriving DecidableEq, Repr

/-- Models `Build.__init__`: `Build(*args, **kwargs)` requires at least the wrapped
dependency, and raises `TypeError` when there is no extra positional or
keyword argument at all. -/
def buildInit (args : List Nat) (kwargs : List (String × Nat)) :
    Except String FKey :=
  match args with
  | [] => .error "At least the dependency and one additional argument are mandatory."
  | w :: rest =>
    if rest.isEmpty && kwargs.isEmpty then
      .error "Without additional arguments, Build must not be used."
    else
      .ok (.build w rest kwargs)

/-- Python `==` between factory keys.  `Build.__eq__` requires the other
operand to be a `Build` and compares `self.wrapped`, `self.args` and —
verbatim from the source — `self.kwargs == self.kwargs` (the keyword
arguments of the OTHER operand are never consulted).  A bare identifier never
compares equal to a `Build`. -/
def buildEq : FKey → FKey → Bool
  | .base n, .base m => n == m
  | .base _, .build _ _ _ => false
  | .build _ _ _, .base _ => false
  | .build w a kw, .build w' a' _ => w == w' && a == a' && kw == kw

/-- The data Python hashes for a factory key: `Build.__hash__` is
`hash((self.wrapped, self.args, tuple(self.kwargs.items())))`, a bare key is
hashed directly.  (The `except TypeError` fallback in `__hash__` is for
unhashable components, which cannot arise here.)  Equal tuples always hash
equal; distinct tuples hash apart for these finite components. -/
inductive HashData where
  | ofVal : Nat → HashData
  | ofTuple : Nat → List Nat → List (String × Nat) → HashData
deriving DecidableEq, Repr

def buildHashData : FKey → HashData
  | .base n => .ofVal n
  | .build w a kw => .ofTuple w a kw

/-- What `FactoryProvider` stores per key (class `Factory`). -/
structure FactoryRec where
  func : List Nat → List (String × Nat) → Val
  singleton : Bool
  takesDependency : Bool

abbrev FactoryReg := List (Nat × FactoryRec)

def lookupFac : FactoryReg → Nat → Option FactoryRec
  | [], _ => none
  | (k, f) :: rest, key => if k == key then some f else lookupFac rest key

/-- Models `FactoryProvider.provide`: unwrap a `Build` to its base key, look the
factory up (declining with `none` on a miss), unpack the extra build
arguments, prepend the key itself when `takes_dependency` is set, and return
the factory's result together with the registered singleton flag. -/
def factoryProvide (reg : FactoryReg) (dep : FKey) : Option (Val × Bool) :=
  let key : Nat := match dep with | .build w _ _ => w | .base n => n
  match lookupFac reg key with
  | none => none
  | some f =>
    let (args, kwargs) :=
      match dep with | .build _ a kw => (a, kw) | .base _ => ([], [])
    let args := if f.takesDependency then key :: args else args
    some (f.func args kwargs, f.singleton)

/-- A concrete demonstration factory: returns `100` plus the sum of its
positional arguments. -/
def demoFactory : FactoryRec :=
  ⟨fun args _ => 100 + args.sum, true, false⟩

def demoReg : FactoryReg := [(0, demoFactory)]

/-! ## Resource provider (`providers/resource.py`)

Resource identifiers are strings of the shape `"<namespace>:<name>"`,
modelled as `List Char`.  A getter is a function from the resource name to an
optional value (`none` models the `LookupError` a getter raises when it cannot
provide the resource). -/

structure ResourceGetter where
  getter : List Char → Option Val
  ns : List Char
  priority : Int
  omitNamespace : Bool
  singleton : Bool

/-- Models `ResourceGetter.get`: pass the bare resource name, or re-attach the
namespace when `omit_namespace` is false. -/
def ResourceGetter.get (g : ResourceGetter) (resourceName : List Char) :
    Option Val :=
  if g.omitNamespace then g.getter resourceName
  else g.getter (g.ns ++ ':' :: resourceName)

/-- Models `ResourceProvider._priority_sorted_getters_by_namespace`. -/
abbrev ResState := List (List Char × List ResourceGetter)

def lookupNs : ResState → List Char → Option (List ResourceGetter)
  | [], _ => none
  | (ns, gs) :: rest, key => if ns == key then some gs else lookupNs rest key

def setNs : ResState → List Char → List ResourceGetter → ResState
  | [], key, gs => [(key, gs)]
  | (ns, gs') :: rest, key, gs =>
      if ns == key then (ns, gs) :: rest else (ns, gs') :: setNs rest key gs

/-- Models `re.match(r'^\w+$', namespace)`: nonempty, word characters only. -/
def validNamespace (ns : List Char) : Bool :=
  !ns.isEmpty && ns.all (fun c => c.isAlphanum || c == '_')

/-- Models `bisect.bisect(xs, x)` (right bisection) on an ascending list, written as
the equivalent linear scan: the first index whose element exceeds `x`.  The
source applies it to `[-g.priority for g in getters]`, which is ascending for
the priority-sorted getter lists the provider maintains. -/
def bisectRight (xs : List Int) (x : Int) : Nat :=
  match xs with
  | [] => 0
  | y :: ys => if x < y then 0 else bisectRight ys x + 1

/-- Models `getters.insert(idx, g)`. -/
def insertAt : Nat → ResourceGetter → List ResourceGetter → List ResourceGetter
  | 0, g, l => g :: l
  | _ + 1, g, [] => [g]
  | n + 1, g, h :: t => h :: insertAt n g t

/-- Registration-time errors of `ResourceProvider.register`. -/
inductive RegErr where
  | valueError
  | priorityConflict
deriving DecidableEq, Repr

/-- Models `ResourceProvider.register`: validate the namespace, reject a duplicate
priority within the namespace (`GetterPriorityConflict`), then insert the new
getter at the bisection point of the negated priorities, keeping the list
sorted with the highest priority first. -/
def registerResource (st : ResState) (getter : List Char → Option Val)
    (ns : List Char) (priority : Int) (omitNamespace singleton : Bool) :
    Except RegErr ResState :=
  if !validNamespace ns then .error .valueError
  else
    let getters := (lookupNs st ns).getD []
    if getters.any (fun g => g.priority == priority) then
      .error .priorityConflict
    else
      let idx := bisectRight (getters.map (fun g => -g.priority)) (-priority)
      .ok (setNs st ns
        (insertAt idx ⟨getter, ns, priority, omitNamespace, singleton⟩ getters))

/-- The getter loop of `ResourceProvider.provide`: call each getter in list
order; a `LookupError` (`none`) means "try the next getter"; the first value
wins, together with that getter's singleton flag. -/
def tryGetters : List ResourceGetter → List Char → Option (Val × Bool)
  | [], _ => none
  | g :: rest, name =>
    match g.get name with
    | none => tryGetters rest name
    | some v => some (v, g.singleton)

/-- Models `dependency_id.split(':', 1)`: namespace up to the first colon, resource
name after it. -/
def splitNsName (id : List Char) : List Char × List Char :=
  (id.takeWhile (fun c => c ≠ ':'), (id.dropWhile (fun c => c ≠ ':')).tail)

/-- Models `ResourceProvider.provide`: only string ids containing `':'` are
considered; split off the namespace, find its getters and try them in order;
decline (`none`) otherwise. -/
def resProvide (st : ResState) (id : List Char) : Option (Val × Bool) :=
  if id.any (fun c => c == ':') then
    let (ns, name) := splitNsName id
    match lookupNs st ns with
    | none => none
    | some getters => tryGetters getters name
  else none

/-- The ordering invariant of the getter lists: strictly decreasing
priority, i.e. highest priority first. -/
def sortedGetters (l : List ResourceGetter) : Prop :=
  l.Pairwise (fun a b => b.priority < a.priority)

/-- Ordered insertion by decreasing priority (analysis helper): provably what
`insertAt (bisectRight ...)` computes. -/
def insertOrd (g : ResourceGetter) : List ResourceGetter → List ResourceGetter
  | [] => [g]
  | h :: t => if h.priority < g.priority then g :: h :: t else h :: insertOrd g t

/-! ## Tag provider (`providers/tag/provider.py`)

`TagProvider._tagged_dependencies` maps a tag name to the (insertion-ordered)
dict of tagged dependency keys.  `provide` answers only for `Tagged` keys and
builds a `TaggedDependencies` collection whose getters are the closures
`lambda: self._container[key]`; resolving a key through the container is
modelled by the environment `env : Nat → Val`. -/

inductive TKey where
  | plain : Nat → TKey
  | tagged : String → TKey
deriving DecidableEq, Repr

abbrev TagReg := List (String × List Nat)

def lookupTag : TagReg → String → Option (List Nat)
  | [], _ => none
  | (t, ks) :: rest, name => if t == name then some ks else lookupTag rest name

/-- Models `TaggedDependencies`: already instantiated positions (`self._instances`),
remaining getters (`self._dependencies` deque, holding the keys still to be
resolved) and the fixed total `len(self._tags)`. -/
structure TaggedDeps where
  numTags : Nat
  instances : List Val
  getters : List Nat
deriving DecidableEq, Repr

/-- The `TaggedDependencies.dependencies()` generator, resumed at position
`i`: yield cached instances while they exist; at the first uncached position
pop the next getter, call it (resolving its key through `env`) and cache the
result.  Returns the yielded values, the final collection state and the list
of getter keys that were actually invoked; `none` models the `IndexError`
that escapes when the getter deque is exhausted early (unreachable when
`instances.length + getters.length = numTags`). -/
def depsFrom (env : Nat → Val) (td : TaggedDeps) (i : Nat) :
    Option (List Val × TaggedDeps × List Nat) :=
  if _h : i < td.numTags then
    match td.instances[i]? with
    | some v =>
      match depsFrom env td (i + 1) with
      | some (vs, td', calls) => some (v :: vs, td', calls)
      | none => none
    | none =>
      match td.getters with
      | [] => none
      | g :: rest =>
        let td' : TaggedDeps := ⟨td.numTags, td.instances ++ [env g], rest⟩
        match td'.instances[i]? with
        | none => none
        | some v =>
          match depsFrom env td' (i + 1) with
          | some (vs, td'', calls) => some (v :: vs, td'', g :: calls)
          | none => none
  else some ([], td, [])
termination_by td.numTags - i

/-- One full run of the `dependencies()` generator. -/
def tagDependencies (env : Nat → Val) (td : TaggedDeps) :
    Option (List Val × TaggedDeps × List Nat) :=
  depsFrom env td 0

/-- Models `TagProvider.provide`: answer only for a `Tagged` name, with a fresh
`TaggedDependencies` over the keys registered under that tag, explicitly NOT
a singleton. -/
def tagProvide (reg : TagReg) (k : TKey) : Option (TaggedDeps × Bool) :=
  match k with
  | .tagged name =>
    let ks := (lookupTag reg name).getD []
    some (⟨ks.length, [], ks⟩, false)
  | .plain _ => none

/-! ## Concrete providers used by the witnesses -/

/-- A provider serving key `0` through a factory that requests key `1`. -/
def provNeeds1 : Prov :=
  ⟨fun k => if pyEq k (.base 0) then
      some (.getThen (.base 1) (fun v => .ret v), true)
    else none⟩

/-- A provider serving key `1` through a factory that requests key `0`. -/
def provNeeds0 : Prov :=
  ⟨fun k => if pyEq k (.base 1) then
      some (.getThen (.base 0) (fun v => .ret (v + 1)), true)
    else none⟩

/-- A provider serving key `2` directly. -/
def provConst : Prov :=
  ⟨fun k => if pyEq k (.base 2) then some (.ret 42, true) else none⟩

/-- A provider whose factory for key `3` raises a user exception. -/
def provRaises : Prov :=
  ⟨fun k => if pyEq k (.base 3) then some (.raiseE (.userError 7), true) else none⟩

/-- A priority-2 resource getter for namespace `"g"` that can only answer the
resource name `"a"`. -/
def demoG2 : ResourceGetter :=
  ⟨fun name => if name == ['a'] then some 20 else none, ['g'], 2, true, true⟩

/-- A priority-(-1) resource getter for namespace `"g"` that answers every
resource name. -/
def demoGm1 : ResourceGetter :=
  ⟨fun _ => some 10, ['g'], -1, true, true⟩

/-! # Theorems -/

/-! ## Key equality -/

theorem pyEq_eq_strip : ∀ a b : CKey, pyEq a b = (strip a == strip b)
  | .base n, .base m => by rw [pyEq]; rfl
  | .base n, .dep k => by
      rw [pyEq, pyEq_eq_strip k (.base n)]
      simp only [strip, beq_iff_eq]
      exact Bool.decide_congr eq_comm
  | .dep k, .base m => by rw [pyEq, pyEq_eq_strip k (.base m)]; rfl
  | .dep k, .dep k' => by
      rw [pyEq, pyEq_eq_strip k (.dep k'), pyEq_eq_strip k k']
      simp [strip]
termination_by a b => sizeOf a + sizeOf b

theorem pyEq_refl (k : CKey) : pyEq k k = true := by
  rw [pyEq_eq_strip]; simp

theorem lookupC_insertC_pyEq (c : Cache) (k k' : CKey) (v : Val)
    (h : pyEq k k' = true) : lookupC (insertC c k v) k' = some v := by
  induction c with
  | nil =>
      simp only [insertC, lookupC, h, if_pos]
  | cons hd tl ih =>
      obtain ⟨k₀, v₀⟩ := hd
      by_cases h₀ : pyEq k₀ k = true
      · have h₁ : pyEq k₀ k' = true := by
          rw [pyEq_eq_strip] at h h₀ ⊢
          simp only [beq_iff_eq] at h h₀ ⊢
          omega
        simp [insertC, h₀, lookupC, h₁]
      · have h₁ : pyEq k₀ k' = false := by
          rw [pyEq_eq_strip] at h h₀ ⊢
          simp only [beq_iff_eq] at h h₀
          simp only [beq_eq_false_iff_ne, ne_eq]
          omega
        simp [insertC, h₀, lookupC, h₁, ih]

theorem firstAnswer_of_all_none {provs : List Prov} {k : CKey}
    (h : ∀ p ∈ provs, p.answers k = none) : firstAnswer provs k = none := by
  induction provs with
  | nil => rfl
  | cons p rest ih =>
      rw [firstAnswer, h p (by simp)]
      exact ih (fun q hq => h q (by simp [hq]))

/-! ## C2 — `InstantiationStack.push` -/

/-- C2, counterexample.  Pushing `base 1` onto the (reachable) stack
`[base 0, base 1]` raises a `DependencyCycleError` whose path is the ENTIRE
stack `[base 0, base 1, base 1]`, not the claimed segment from the first
occurrence of the key, which would be `[base 1, base 1]`. -/
theorem claim_C2_counterexample :
    (InstantiationStack.mk [.base 0] [.base 0]).push (.base 1) =
      .ok ⟨[.base 0, .base 1], [.base 0, .base 1]⟩
    ∧ (InstantiationStack.mk [.base 0, .base 1] [.base 0, .base 1]).push
        (.base 1) = .error [.base 0, .base 1, .base 1]
    ∧ (List.dropWhile (fun d => !pyEq d (.base 1)) [.base 0, .base 1]
        ++ [CKey.base 1]) = [.base 1, .base 1]
    ∧ ([CKey.base 0, .base 1, .base 1]) ≠ [.base 1, .base 1] := by
  refine ⟨?_, ?_, ?_, by decide⟩ <;>
    simp [InstantiationStack.push, stackMem, pyEq_eq_strip, strip,
      List.dropWhile]

/-- C2, amended: for every stack state and key, if the key is already a
member, `push` fails with a `CycleError` whose carried path is the ENTIRE
current stack (bottom to top) followed by the key again; if the key is not a
member, `push` appends it to both the sequence and the membership set. -/
theorem claim_C2 (s : InstantiationStack) (k : CKey) :
    (stackMem s k = true → s.push k = .error (s.stack ++ [k]))
    ∧ (stackMem s k = false →
        s.push k = .ok ⟨s.stack ++ [k], s.dependencies ++ [k]⟩) := by
  constructor <;> intro h <;> simp [InstantiationStack.push, h]

/-- C2, witness: instantiates the amended claim on the stack `[base 0]` for
the member key `base 0` and the fresh key `base 1`. -/
theorem claim_C2_witness :
    (InstantiationStack.mk [.base 0] [.base 0]).push (.base 0) =
      .error [.base 0, .base 0]
    ∧ (InstantiationStack.mk [.base 0] [.base 0]).push (.base 1) =
      .ok ⟨[.base 0, .base 1], [.base 0, .base 1]⟩ := by
  constructor
  · exact (claim_C2 ⟨[.base 0], [.base 0]⟩ (.base 0)).1
      (by simp [stackMem, pyEq_eq_strip, strip])
  · exact (claim_C2 ⟨[.base 0], [.base 0]⟩ (.base 1)).2
      (by simp [stackMem, pyEq_eq_strip, strip])

/-! ## C3 — explicit set wins over providers -/

/-- C3: for every key and value, `container[k] = v` followed by a read of `k`
returns `v`, whatever providers are registered and whatever else is cached:
the freshly set singleton-cache entry answers before any provider is
consulted. -/
theorem claim_C3 (fuel : Nat) (provs : List Prov) (st : St) (k : CKey)
    (v : Val) :
    getitem fuel provs (setitem st k v) k = .ok (setitem st k v, v)
    ∧ provide fuel provs (setitem st k v) k = .ok (setitem st k v, some v) := by
  have hl : lookupC (insertC st.cache k v) k = some v :=
    lookupC_insertC_pyEq st.cache k k v (pyEq_refl k)
  have hp : provide fuel provs (setitem st k v) k
      = .ok (setitem st k v, some v) := by
    cases fuel <;> simp [provide, setitem, hl]
  exact ⟨by rw [getitem, hp], hp⟩

/-! ## C1 — exception wrapping in `provide` -/

theorem handleErr_eq (k : CKey) (e : PyErr) :
    handleErr k e = if e.isCycle then e else .instantiationError k e := by
  cases e <;> rfl

/-- C1: when a provider's factory raises during `provide`, the container
re-raises it as `DependencyInstantiationError` carrying the key and the
original exception as cause, except a `DependencyCycleError`, which is always
re-raised unchanged — both for a cycle detected by the push itself and for a
cycle surfacing out of an arbitrarily deep nested resolution, since factory
frames (`getThen`) pass every container error through untouched. -/
theorem claim_C1 (fuel : Nat) (provs : List Prov) (st : St) (k : CKey) :
    (∀ (stk' : InstantiationStack) (prog : FProg) (sing : Bool) (e : PyErr),
      lookupC st.cache k = none →
      st.stack.push k = .ok stk' →
      firstAnswer provs (wrap k) = some (prog, sing) →
      runProg fuel provs ⟨st.cache, stk'⟩ prog = .error e →
      provide (fuel + 1) provs st k =
        .error (if e.isCycle then e else .instantiationError k e))
    ∧ (∀ p : List CKey,
      lookupC st.cache k = none →
      st.stack.push k = .error p →
      provide (fuel + 1) provs st k = .error (.cycleError p))
    ∧ (∀ (f : Val → FProg) (e : PyErr),
      provide fuel provs st k = .error e →
      runProg (fuel + 1) provs st (.getThen k f) = .error e) := by
  refine ⟨?_, ?_, ?_⟩
  · intro stk' prog sing e hc hpush hfa hrun
    rw [← handleErr_eq]
    simp [provide, hc, hpush, hfa, hrun]
  · intro p hc hpush
    simp [provide, hc, hpush, handleErr]
  · intro f e hp
    simp [runProg, hp]

/-- C1, witness: (i) a cycle raised two resolutions deep
(`0` needs `1` needs `0`) comes back verbatim as
`DependencyCycleError [0, 1, 0]`; a factory raising a user exception for key
`3` comes back wrapped as `DependencyInstantiationError 3 (userError 7)`;
(ii) a push-detected cycle is re-raised unchanged; (iii) a factory frame
passes a container error through unchanged. -/
theorem claim_C1_witness :
    provide 10 [provNeeds1, provNeeds0] ⟨[], .empty⟩ (.base 0) =
      .error (.cycleError [.base 0, .base 1, .base 0])
    ∧ provide 1 [provRaises] ⟨[], .empty⟩ (.base 3) =
      .error (.instantiationError (.base 3) (.userError 7))
    ∧ provide 1 [] ⟨[], ⟨[.base 0], [.base 0]⟩⟩ (.base 0) =
      .error (.cycleError [.base 0, .base 0])
    ∧ runProg 1 [] ⟨[], .empty⟩ (.getThen (.base 9) (fun _ => .ret 0)) =
      .error PyErr.recursionError := by
  refine ⟨?_, ?_, ?_, ?_⟩
  · have h := (claim_C1 9 [provNeeds1, provNeeds0] ⟨[], .empty⟩ (.base 0)).1
      ⟨[.base 0], [.base 0]⟩ (.getThen (.base 1) (fun v => .ret v)) true
      (.cycleError [.base 0, .base 1, .base 0]) rfl
      (by simp [InstantiationStack.push, stackMem, InstantiationStack.empty])
      (by simp [firstAnswer, provNeeds1, wrap, pyEq_eq_strip, strip])
      (by simp [runProg, provide, provNeeds1, provNeeds0, firstAnswer, wrap,
            pyEq_eq_strip, strip, lookupC, InstantiationStack.push, stackMem,
            InstantiationStack.empty, handleErr])
    simpa using h
  · have h := (claim_C1 0 [provRaises] ⟨[], .empty⟩ (.base 3)).1
      ⟨[.base 3], [.base 3]⟩ (.raiseE (.userError 7)) true (.userError 7) rfl
      (by simp [InstantiationStack.push, stackMem, InstantiationStack.empty])
      (by simp [firstAnswer, provRaises, wrap, pyEq_eq_strip, strip])
      (by simp [runProg])
    simpa using h
  · exact (claim_C1 0 [] ⟨[], ⟨[.base 0], [.base 0]⟩⟩ (.base 0)).2.1
      [.base 0, .base 0] rfl
      (by simp [InstantiationStack.push, stackMem, pyEq_eq_strip, strip])
  · exact (claim_C1 0 [] ⟨[], .empty⟩ (.base 9)).2.2 (fun _ => .ret 0)
      PyErr.recursionError (by simp [provide, lookupC])

/-! ## C4 — `Get` semantics -/

/-- C4: a key with no cache entry that every provider declines makes
`container[k]` fail with `DependencyNotFoundError(k)`; a cached key returns
its cache entry; a key some provider successfully produces returns the
produced instance (cached when marked singleton). -/
theorem claim_C4 (fuel : Nat) (provs : List Prov) (st : St) (k : CKey) :
    ((lookupC st.cache k = none) →
     (∀ p ∈ provs, p.answers (wrap k) = none) →
     stackMem st.stack k = false →
     getitem (fuel + 1) provs st k = .error (.notFoundError k))
    ∧ (∀ v, lookupC st.cache k = some v →
        getitem fuel provs st k = .ok (st, v))
    ∧ (∀ (stk' : InstantiationStack) (prog : FProg) (sing : Bool) (st' : St)
        (v : Val),
        lookupC st.cache k = none →
        st.stack.push k = .ok stk' →
        firstAnswer provs (wrap k) = some (prog, sing) →
        runProg fuel provs ⟨st.cache, stk'⟩ prog = .ok (st', v) →
        getitem (fuel + 1) provs st k =
          .ok (⟨if sing then insertC st'.cache k v else st'.cache,
                st'.stack.pop⟩, v)) := by
  refine ⟨?_, ?_, ?_⟩
  · intro hc hdecl hmem
    have hfa : firstAnswer provs (wrap k) = none :=
      firstAnswer_of_all_none hdecl
    simp [getitem, provide, hc, hfa, InstantiationStack.push, hmem]
  · intro v hc
    cases fuel <;> simp [getitem, provide, hc]
  · intro stk' prog sing st' v hc hpush hfa hrun
    simp [getitem, provide, hc, hpush, hfa, hrun]

/-- C4, witness: an unknown key `base 5` fails with
`DependencyNotFoundError`; a cached key `base 1` returns its entry; key
`base 2`, produced by a provider as a singleton, is returned and cached. -/
theorem claim_C4_witness :
    getitem 1 [] ⟨[], .empty⟩ (.base 5) = .error (.notFoundError (.base 5))
    ∧ getitem 0 [] ⟨[(.base 1, 7)], .empty⟩ (.base 1) =
        .ok (⟨[(.base 1, 7)], .empty⟩, 7)
    ∧ getitem 1 [provConst] ⟨[], .empty⟩ (.base 2) =
        .ok (⟨[(.base 2, 42)], .empty⟩, 42) := by
  refine ⟨?_, ?_, ?_⟩
  · exact (claim_C4 0 [] ⟨[], .empty⟩ (.base 5)).1 rfl (by simp)
      (by simp [stackMem, InstantiationStack.empty])
  · exact (claim_C4 0 [] ⟨[(.base 1, 7)], .empty⟩ (.base 1)).2.1 7
      (by simp [lookupC, pyEq_eq_strip, strip])
  · have h := (claim_C4 0 [provConst] ⟨[], .empty⟩ (.base 2)).2.2
      ⟨[.base 2], [.base 2]⟩ (.ret 42) true ⟨[], ⟨[.base 2], [.base 2]⟩⟩ 42
      rfl
      (by simp [InstantiationStack.push, stackMem, InstantiationStack.empty])
      (by simp [firstAnswer, provConst, wrap, pyEq_eq_strip, strip])
      (by simp [runProg])
    simpa [insertC, InstantiationStack.pop, InstantiationStack.empty,
      List.eraseP, pyEq_eq_strip, strip] using h

/-! ## C10 — `Dependency` wrapping is transparent -/

/-- C10: wrapping a key in `Dependency` never changes its hash; the wrapped
key compares equal to the bare key and to any `Dependency` wrapping an equal
key; bare and wrapped forms address the same singleton-cache slot; and the
key the container hands to providers (`wrap`) is equal to the key it uses for
the cache. -/
theorem claim_C10 :
    (∀ k : CKey, pyHash (.dep k) = pyHash k)
    ∧ (∀ k : CKey, pyEq (.dep k) k = true)
    ∧ (∀ k k' : CKey, pyEq k k' = true → pyEq (.dep k) (.dep k') = true)
    ∧ (∀ (c : Cache) (k : CKey) (v : Val),
        lookupC (insertC c k v) (.dep k) = some v
        ∧ lookupC (insertC c (.dep k) v) k = some v)
    ∧ (∀ k : CKey, pyEq (wrap k) k = true) := by
  have hdep : ∀ k : CKey, pyEq (.dep k) k = true := by
    intro k; rw [pyEq_eq_strip]; simp [strip]
  refine ⟨fun k => rfl, hdep, ?_, ?_, ?_⟩
  · intro k k' h
    rw [pyEq_eq_strip] at h ⊢
    simpa [strip] using h
  · intro c k v
    constructor
    · exact lookupC_insertC_pyEq c k (.dep k) v
        (by rw [pyEq_eq_strip]; simp [strip])
    · exact lookupC_insertC_pyEq c (.dep k) k v (hdep k)
  · intro k
    cases k with
    | base n => exact hdep (.base n)
    | dep k' => exact pyEq_refl (.dep k')

/-- C10, witness: the conjunct with a hypothesis, instantiated at the equal
keys `base 5` and `Dependency(base 5)`. -/
theorem claim_C10_witness :
    pyEq (.dep (.base 5)) (.dep (.dep (.base 5))) = true := by
  exact claim_C10.2.2.1 (.base 5) (.dep (.base 5))
    (by rw [pyEq_eq_strip]; simp [strip])

/-! ## C5 — injection wrapper -/

/-- C5: every blueprint entry past the supplied positional arguments whose
name is not yet among the keyword arguments and which carries a dependency is
resolved through the container's `provide`; a resolved value is injected as a
keyword argument; on the not-found sentinel an optional entry injects nothing
(the declared default applies), while a required entry raises
`DependencyNotFoundError` naming the dependency — and any such failure
happens before the wrapped callable runs: the call's result is the error for
EVERY wrapped callable. -/
theorem claim_C5 (fuel : Nat) (provs : List Prov) (st : St) :
    (∀ (bp : List Injection) (skip : Bool) (args : List Val)
        (kwargs : List (String × Val)) (e : PyErr),
      injectKwargs fuel provs st
          (bp.drop ((if skip then 1 else 0) + args.length)) kwargs = .error e →
      ∀ wrapped,
        wrapperCall fuel provs st bp skip wrapped args kwargs = .error e)
    ∧ (∀ (inj : Injection) (rest : List Injection)
        (kwargs : List (String × Val)) (d : CKey) (st' : St) (v : Val),
      inj.dependency = some d →
      kwargs.any (fun p => p.1 == inj.argName) = false →
      provide fuel provs st d = .ok (st', some v) →
      injectKwargs fuel provs st (inj :: rest) kwargs =
        injectKwargs fuel provs st' rest (kwargs ++ [(inj.argName, v)]))
    ∧ (∀ (inj : Injection) (rest : List Injection)
        (kwargs : List (String × Val)) (d : CKey) (st' : St),
      inj.dependency = some d →
      kwargs.any (fun p => p.1 == inj.argName) = false →
      provide fuel provs st d = .ok (st', none) →
      inj.required = true →
      injectKwargs fuel provs st (inj :: rest) kwargs =
        .error (.notFoundError d))
    ∧ (∀ (inj : Injection) (rest : List Injection)
        (kwargs : List (String × Val)) (d : CKey) (st' : St),
      inj.dependency = some d →
      kwargs.any (fun p => p.1 == inj.argName) = false →
      provide fuel provs st d = .ok (st', none) →
      inj.required = false →
      injectKwargs fuel provs st (inj :: rest) kwargs =
        injectKwargs fuel provs st' rest kwargs) := by
  refine ⟨?_, ?_, ?_, ?_⟩
  · intro bp skip args kwargs e herr wrapped
    simp [wrapperCall, herr]
  · intro inj rest kwargs d st' v hd hk hp
    simp [injectKwargs, hd, hk, hp]
  · intro inj rest kwargs d st' hd hk hp hreq
    simp [injectKwargs, hd, hk, hp, hreq]
  · intro inj rest kwargs d st' hd hk hp hreq
    simp [injectKwargs, hd, hk, hp, hreq]

/-- C5, witness: a blueprint whose single entry requires the unknown key
`base 5` makes the call fail with `DependencyNotFoundError (base 5)` without
running the callable; with `required := false` the entry injects nothing and
the callable runs with the original (empty) keyword arguments. -/
theorem claim_C5_witness :
    injectKwargs 1 [] ⟨[], .empty⟩ [⟨"a", true, some (.base 5)⟩] [] =
      .error (.notFoundError (.base 5))
    ∧ wrapperCall 1 [] ⟨[], .empty⟩ [⟨"a", true, some (.base 5)⟩] false
        (fun _ kw s => .ok (s, 1000 + kw.length)) [] [] =
      .error (.notFoundError (.base 5))
    ∧ injectKwargs 1 [] ⟨[], .empty⟩ [⟨"a", false, some (.base 5)⟩] [] =
      .ok (⟨[], .empty⟩, []) := by
  have hsent : provide 1 [] (⟨[], .empty⟩ : St) (.base 5) =
      .ok (⟨[], .empty⟩, none) := by
    simp [provide, lookupC, InstantiationStack.push, stackMem,
      InstantiationStack.empty, firstAnswer, InstantiationStack.pop,
      pyEq_eq_strip, strip]
  have hreq := (claim_C5 1 [] ⟨[], .empty⟩).2.2.1 ⟨"a", true, some (.base 5)⟩
    [] [] (.base 5) ⟨[], .empty⟩ rfl rfl hsent rfl
  refine ⟨hreq, ?_, ?_⟩
  · exact (claim_C5 1 [] ⟨[], .empty⟩).1 [⟨"a", true, some (.base 5)⟩] false []
      [] (.notFoundError (.base 5)) (by simpa using hreq) _
  · have hopt := (claim_C5 1 [] ⟨[], .empty⟩).2.2.2 ⟨"a", false, some (.base 5)⟩
      [] [] (.base 5) ⟨[], .empty⟩ rfl rfl hsent rfl
    simpa [injectKwargs] using hopt

/-! ## C6 — `Build` equality ignores the other key's keyword arguments -/

/-- C6: evaluation of `Build.__eq__` and of the data `Build.__hash__` hashes
at the failing input.  `Build(0, 1, x=1)` and `Build(0, 1, x=2)` differ in
their keyword arguments, yet compare equal — `__eq__` tests
`self.kwargs == self.kwargs` — while their hash inputs differ, so equality is
neither determined by the keyword arguments nor consistent with hashing, as
the claim requires. -/
theorem claim_C6 :
    buildEq (.build 0 [1] [("x", 1)]) (.build 0 [1] [("x", 2)]) = true
    ∧ ([("x", 1)] : List (String × Nat)) ≠ [("x", 2)]
    ∧ buildHashData (.build 0 [1] [("x", 1)]) ≠
        buildHashData (.build 0 [1] [("x", 2)]) := by
  refine ⟨rfl, by decide, by decide⟩

/-! ## C7 — `Build` with no extra arguments is rejected, with arguments it is
a distinct key -/

/-- C7: evaluation of the code at the claim's inputs.  `Build` with no extra
arguments raises `TypeError` at construction (contradicting the claim and the
class's own docstring); a `Build` carrying arguments is never equal to the
bare base key and its hash input differs; `Build(0, 1)` and `Build(0, 2)` are
distinct keys, and the same registered factory produces an independent result
for each (and for the bare key). -/
theorem claim_C7 :
    buildInit [0] [] =
      .error "Without additional arguments, Build must not be used."
    ∧ buildInit [] [] =
      .error "At least the dependency and one additional argument are mandatory."
    ∧ buildInit [0, 1] [] = .ok (.build 0 [1] [])
    ∧ buildEq (.build 0 [1] []) (.base 0) = false
    ∧ buildEq (.base 0) (.build 0 [1] []) = false
    ∧ buildHashData (.build 0 [1] []) ≠ buildHashData (.base 0)
    ∧ buildEq (.build 0 [1] []) (.build 0 [2] []) = false
    ∧ factoryProvide demoReg (.build 0 [1] []) = some (101, true)
    ∧ factoryProvide demoReg (.build 0 [2] []) = some (102, true)
    ∧ factoryProvide demoReg (.base 0) = some (100, true) := by
  refine ⟨rfl, rfl, rfl, rfl, rfl, by decide, by decide, rfl, rfl, rfl⟩

/-! ## C8 — resource provider -/

theorem insertAt_bisect_eq_insertOrd (g : ResourceGetter) :
    ∀ l : List ResourceGetter,
      insertAt (bisectRight (l.map (fun x => -x.priority)) (-g.priority)) g l
        = insertOrd g l
  | [] => rfl
  | h :: t => by
      rw [List.map_cons, bisectRight, insertOrd]
      by_cases hc : h.priority < g.priority
      · rw [if_pos (by omega), if_pos hc, insertAt]
      · rw [if_neg (by omega), if_neg hc, insertAt,
          insertAt_bisect_eq_insertOrd g t]

theorem mem_insertOrd {x g : ResourceGetter} :
    ∀ {l : List ResourceGetter}, x ∈ insertOrd g l → x = g ∨ x ∈ l := by
  intro l
  induction l with
  | nil => intro h; simpa [insertOrd] using h
  | cons h t ih =>
      intro hx
      rw [insertOrd] at hx
      by_cases hc : h.priority < g.priority
      · rw [if_pos hc] at hx
        rcases List.mem_cons.mp hx with hx | hx
        · exact Or.inl hx
        · exact Or.inr hx
      · rw [if_neg hc] at hx
        rcases List.mem_cons.mp hx with hx | hx
        · exact Or.inr (by simp [hx])
        · rcases ih hx with hx | hx
          · exact Or.inl hx
          · exact Or.inr (by simp [hx])

theorem sorted_insertOrd {g : ResourceGetter} :
    ∀ {l : List ResourceGetter}, sortedGetters l →
      (∀ g' ∈ l, g'.priority ≠ g.priority) → sortedGetters (insertOrd g l) := by
  intro l
  induction l with
  | nil => intro _ _; simp [insertOrd, sortedGetters]
  | cons h t ih =>
      intro hs hne
      rw [sortedGetters, List.pairwise_cons] at hs
      rw [insertOrd]
      by_cases hc : h.priority < g.priority
      · rw [if_pos hc, sortedGetters, List.pairwise_cons]
        refine ⟨?_, ?_⟩
        · intro b hb
          rcases List.mem_cons.mp hb with hb | hb
          · subst hb; exact hc
          · have := hs.1 b hb; omega
        · rw [List.pairwise_cons]
          exact ⟨hs.1, hs.2⟩
      · rw [if_neg hc, sortedGetters, List.pairwise_cons]
        have hgh : g.priority < h.priority := by
          have := hne h (by simp); omega
        refine ⟨?_, ih hs.2 (fun g' hg' => hne g' (by simp [hg']))⟩
        intro b hb
        rcases mem_insertOrd hb with hb | hb
        · subst hb; exact hgh
        · exact hs.1 b hb

theorem lookupNs_setNs (st : ResState) (ns ns' : List Char)
    (gs : List ResourceGetter) :
    lookupNs (setNs st ns gs) ns' =
      if ns == ns' then some gs else lookupNs st ns' := by
  induction st with
  | nil => rfl
  | cons hd rest ih =>
      obtain ⟨k, gs'⟩ := hd
      by_cases hk : k = ns
      · subst hk
        rw [setNs, if_pos (by simp), lookupNs, lookupNs]
        by_cases hk' : k = ns'
        · subst hk'; simp
        · simp [hk', beq_eq_false_iff_ne.mpr hk']
      · rw [setNs, if_neg (by simpa using hk), lookupNs, lookupNs]
        by_cases hk' : k = ns'
        · subst hk'
          have : ¬ ns = k := fun h => hk h.symm
          simp [beq_eq_false_iff_ne.mpr this]
        · simp [beq_eq_false_iff_ne.mpr hk', ih]

/-- C8: registering a getter with a priority already present in the namespace
fails with the priority-conflict error; a successful registration keeps every
namespace's getters sorted with strictly decreasing priority, which is the
order the provider tries them in; a getter that answers makes its value (and
singleton flag) the result immediately; a getter signalling not-found falls
through to the next getter; and only when every getter of the namespace has
signalled not-found does the provider decline. -/
theorem claim_C8 :
    (∀ (st : ResState) (getter : List Char → Option Val) (ns : List Char)
        (priority : Int) (omitN sing : Bool) (g : ResourceGetter),
      validNamespace ns = true →
      g ∈ (lookupNs st ns).getD [] → g.priority = priority →
      registerResource st getter ns priority omitN sing =
        .error .priorityConflict)
    ∧ (∀ (st : ResState) (getter : List Char → Option Val) (ns : List Char)
        (priority : Int) (omitN sing : Bool) (st' : ResState),
      registerResource st getter ns priority omitN sing = .ok st' →
      (∀ ns', sortedGetters ((lookupNs st ns').getD [])) →
      (∀ ns', sortedGetters ((lookupNs st' ns').getD [])))
    ∧ (∀ (g : ResourceGetter) (rest : List ResourceGetter) (name : List Char)
        (v : Val),
      g.get name = some v →
      tryGetters (g :: rest) name = some (v, g.singleton))
    ∧ (∀ (g : ResourceGetter) (rest : List ResourceGetter) (name : List Char),
      g.get name = none →
      tryGetters (g :: rest) name = tryGetters rest name)
    ∧ (∀ (getters : List ResourceGetter) (name : List Char),
      (∀ g ∈ getters, g.get name = none) → tryGetters getters name = none)
    ∧ (∀ (st : ResState) (id : List Char) (getters : List ResourceGetter),
      id.any (fun c => c == ':') = true →
      lookupNs st (splitNsName id).1 = some getters →
      (∀ g ∈ getters, g.get (splitNsName id).2 = none) →
      resProvide st id = none) := by
  have htry : ∀ (getters : List ResourceGetter) (name : List Char),
      (∀ g ∈ getters, g.get name = none) → tryGetters getters name = none := by
    intro getters name h
    induction getters with
    | nil => rfl
    | cons g rest ih =>
        rw [tryGetters, h g (by simp)]
        exact ih (fun q hq => h q (by simp [hq]))
  refine ⟨?_, ?_, ?_, ?_, htry, ?_⟩
  · intro st getter ns priority omitN sing g hns hg hp
    have hany : ((lookupNs st ns).getD []).any
        (fun g => g.priority == priority) = true :=
      List.any_eq_true.mpr ⟨g, hg, by simp [hp]⟩
    rw [registerResource, if_neg (by simp [hns]), if_pos hany]
  · intro st getter ns priority omitN sing st' hreg hsorted ns'
    rw [registerResource] at hreg
    by_cases hns : validNamespace ns = true
    · rw [if_neg (by simp [hns])] at hreg
      by_cases hany : ((lookupNs st ns).getD []).any
          (fun g => g.priority == priority) = true
      · rw [if_pos hany] at hreg; cases hreg
      · rw [if_neg hany] at hreg
        simp only [Except.ok.injEq] at hreg
        rw [← hreg, lookupNs_setNs]
        by_cases hns' : ns = ns'
        · rw [if_pos (by simp [hns'])]
          rw [show (-priority : Int) =
              -(({ getter := getter, ns := ns, priority := priority,
                   omitNamespace := omitN, singleton := sing } :
                  ResourceGetter).priority) from rfl,
            insertAt_bisect_eq_insertOrd]
          refine sorted_insertOrd (hsorted ns) ?_
          intro g' hg' heq
          have hwit : ((lookupNs st ns).getD []).any
              (fun g => g.priority == priority) = true :=
            List.any_eq_true.mpr ⟨g', hg', by simp [heq]⟩
          exact hany hwit
        · rw [if_neg (by simpa using hns')]
          exact hsorted ns'
    · rw [if_pos (by simpa using hns)] at hreg; cases hreg
  · intro g rest name v h
    rw [tryGetters, h]
  · intro g rest name h
    rw [tryGetters, h]
  · intro st id getters hcolon hns hall
    rcases hsp : splitNsName id with ⟨ns0, name0⟩
    rw [hsp] at hns hall
    rw [resProvide, if_pos hcolon, hsp]
    simp only []
    rw [hns]
    exact htry getters _ hall

/-- C8, witness: with a priority-2 getter already registered for namespace
`"g"`, registering another priority-2 getter fails with the priority-conflict
error; registering the priority-2 getter next to the priority-(-1) getter
places it first (strictly decreasing priorities); the name `"a"` is answered
by the priority-2 getter, the name `"b"` falls through to the next getter, an
exhausted getter list yields `none`, and the provider declines the request
`"g:b"` when its only getter cannot answer `"b"`. -/
theorem claim_C8_witness :
    registerResource [(['g'], [demoG2])] (fun _ => none) ['g'] 2 true true =
      .error .priorityConflict
    ∧ registerResource [(['g'], [demoGm1])] demoG2.getter ['g'] 2 true true =
        .ok [(['g'], [demoG2, demoGm1])]
    ∧ sortedGetters [demoG2, demoGm1]
    ∧ tryGetters [demoG2, demoGm1] ['a'] = some (20, true)
    ∧ tryGetters [demoG2, demoGm1] ['b'] = tryGetters [demoGm1] ['b']
    ∧ tryGetters [demoG2] ['b'] = none
    ∧ resProvide [(['g'], [demoG2])] ['g', ':', 'b'] = none := by
  have hreg : registerResource [(['g'], [demoGm1])] demoG2.getter ['g'] 2
      true true = .ok [(['g'], [demoG2, demoGm1])] := by
    have hv : validNamespace ['g'] = true := by decide
    rw [registerResource, if_neg (by simp [hv])]
    norm_num [lookupNs, demoGm1, bisectRight, insertAt, setNs, demoG2]
  refine ⟨?_, hreg, ?_, ?_, ?_, ?_, ?_⟩
  · exact claim_C8.1 [(['g'], [demoG2])] (fun _ => none) ['g'] 2 true true
      demoG2 (by decide) (by simp [lookupNs]) rfl
  · have h := claim_C8.2.1 [(['g'], [demoGm1])] demoG2.getter ['g'] 2 true
      true [(['g'], [demoG2, demoGm1])] hreg
      (by intro ns'
          by_cases hg : ns' = ['g']
          · simp [hg, lookupNs, sortedGetters]
          · simp [lookupNs, beq_eq_false_iff_ne.mpr (Ne.symm hg),
              sortedGetters])
      ['g']
    simpa [lookupNs, sortedGetters] using h
  · exact claim_C8.2.2.1 demoG2 [demoGm1] ['a'] 20
      (by simp [ResourceGetter.get, demoG2])
  · exact claim_C8.2.2.2.1 demoG2 [demoGm1] ['b']
      (by simp [ResourceGetter.get, demoG2])
  · exact claim_C8.2.2.2.2.1 [demoG2] ['b']
      (by intro g hg
          simp only [List.mem_singleton] at hg
          simp [hg, ResourceGetter.get, demoG2])
  · exact claim_C8.2.2.2.2.2 [(['g'], [demoG2])] ['g', ':', 'b'] [demoG2]
      (by decide)
      (by simp [splitNsName, lookupNs])
      (by intro g hg
          simp only [List.mem_singleton] at hg
          simp [hg, ResourceGetter.get, demoG2, splitNsName])

/-! ## C9 — tag provider -/

/-- Running the `dependencies()` generator from the first uncached position:
each remaining getter is popped and invoked exactly once, in order, and its
result is cached. -/
theorem depsFrom_pending (env : Nat → Val) (numTags : Nat) :
    ∀ (getters : List Nat) (instances : List Val),
      instances.length + getters.length = numTags →
      depsFrom env ⟨numTags, instances, getters⟩ instances.length =
        some (getters.map env,
              ⟨numTags, instances ++ getters.map env, []⟩, getters)
  | [], instances, hinv => by
      rw [depsFrom]
      rw [dif_neg (show ¬ instances.length < numTags by simp at hinv; omega)]
      simp
  | g :: rest, instances, hinv => by
      rw [depsFrom]
      have hlt : instances.length < numTags := by simp at hinv; omega
      rw [dif_pos hlt]
      simp only []
      rw [List.getElem?_eq_none (le_refl _)]
      rw [List.getElem?_concat_length]
      have hrec := depsFrom_pending env numTags rest (instances ++ [env g])
        (by simp at hinv ⊢; omega)
      rw [List.length_append] at hrec
      simp only [List.length_singleton] at hrec
      rw [hrec]
      simp

/-- Running the `dependencies()` generator from a position within the cached
prefix: cached values are yielded without invoking any getter, then the
pending getters run once each. -/
theorem depsFrom_cached (env : Nat → Val) (td : TaggedDeps) (i : Nat)
    (hle : i ≤ td.instances.length)
    (hinv : td.instances.length + td.getters.length = td.numTags) :
    depsFrom env td i =
      some (td.instances.drop i ++ td.getters.map env,
            ⟨td.numTags, td.instances ++ td.getters.map env, []⟩,
            td.getters) := by
  rcases Nat.lt_or_ge i td.instances.length with hlt | hge
  · rw [depsFrom]
    rw [dif_pos (by omega)]
    rw [List.getElem?_eq_getElem hlt]
    rw [depsFrom_cached env td (i + 1) hlt hinv]
    rw [List.drop_eq_getElem_cons hlt, List.cons_append]
  · have hi : i = td.instances.length := by omega
    subst hi
    have h := depsFrom_pending env td.numTags td.getters td.instances hinv
    rw [show td = (⟨td.numTags, td.instances, td.getters⟩ : TaggedDeps)
        from rfl, h]
    simp
termination_by td.instances.length - i
decreasing_by omega

/-- C9: the tag provider's answer is never a singleton (for any registry and
any key); the collection it returns for a tag starts unresolved over exactly
the keys registered under that tag; and iterating the collection resolves
each pending position exactly once, in order — a fully resolved collection
yields the same values again without invoking any getter. -/
theorem claim_C9 :
    (∀ (reg : TagReg) (k : TKey) (r : TaggedDeps × Bool),
      tagProvide reg k = some r → r.2 = false)
    ∧ (∀ (reg : TagReg) (name : String) (td : TaggedDeps) (s : Bool),
      tagProvide reg (.tagged name) = some (td, s) →
      td.instances = [] ∧ td.getters = (lookupTag reg name).getD []
        ∧ td.numTags = td.getters.length ∧ s = false)
    ∧ (∀ (env : Nat → Val) (td : TaggedDeps),
      td.instances.length + td.getters.length = td.numTags →
      tagDependencies env td =
        some (td.instances ++ td.getters.map env,
              ⟨td.numTags, td.instances ++ td.getters.map env, []⟩,
              td.getters))
    ∧ (∀ (env : Nat → Val) (numTags : Nat) (vs : List Val),
      vs.length = numTags →
      tagDependencies env ⟨numTags, vs, []⟩ =
        some (vs, ⟨numTags, vs, []⟩, [])) := by
  have hall : ∀ (env : Nat → Val) (td : TaggedDeps),
      td.instances.length + td.getters.length = td.numTags →
      tagDependencies env td =
        some (td.instances ++ td.getters.map env,
              ⟨td.numTags, td.instances ++ td.getters.map env, []⟩,
              td.getters) := by
    intro env td hinv
    rw [tagDependencies, depsFrom_cached env td 0 (Nat.zero_le _) hinv]
    simp
  refine ⟨?_, ?_, hall, ?_⟩
  · intro reg k r h
    cases k with
    | plain n => exact absurd h (by simp [tagProvide])
    | tagged name =>
        rw [tagProvide] at h
        simp only [Option.some.injEq] at h
        rw [← h]
  · intro reg name td s h
    rw [tagProvide] at h
    simp only [Option.some.injEq, Prod.mk.injEq] at h
    obtain ⟨htd, hs⟩ := h
    rw [← htd]
    simp [hs.symm]
  · intro env numTags vs hlen
    have h := hall env ⟨numTags, vs, []⟩ (by simpa using hlen)
    simpa using h

/-- C9, witness: tagging keys `4` and `9` under tag `"t"`, the provider
returns a non-singleton, unresolved collection over `[4, 9]`; its first full
iteration resolves both keys (each exactly once, in order) yielding their
instances, and a second iteration over the resolved collection yields the
same values while invoking no getter. -/
theorem claim_C9_witness :
    tagProvide [("t", [4, 9])] (.tagged "t") = some (⟨2, [], [4, 9]⟩, false)
    ∧ tagDependencies (fun n => n * 10) ⟨2, [], [4, 9]⟩ =
        some ([40, 90], ⟨2, [40, 90], []⟩, [4, 9])
    ∧ tagDependencies (fun n => n * 10) ⟨2, [40, 90], []⟩ =
        some ([40, 90], ⟨2, [40, 90], []⟩, []) := by
  refine ⟨?_, ?_, ?_⟩
  · have h := claim_C9.1 [("t", [4, 9])] (.tagged "t") (⟨2, [], [4, 9]⟩, false)
      (by simp [tagProvide, lookupTag])
    simp [tagProvide, lookupTag]
  · have h := claim_C9.2.2.1 (fun n => n * 10) ⟨2, [], [4, 9]⟩ (by decide)
    simpa using h
  · have h := claim_C9.2.2.2 (fun n => n * 10) 2 [40, 90] (by decide)
    simpa using h

end Antidote
